import Mathlib

/-!
Verification of the Peukert battery-model engine in
`Códigos/Peukert Generalizado 1.0.py`.

The Python code evaluates the generalized Peukert capacity kernel
(`calculo_capacidade`), a classical Peukert runtime formula (`peukert`),
and drives an external Levenberg–Marquardt solver
(`scipy.optimize.least_squares`) inside `encontrar_parametros`.

The embedding below models the numeric kernels over the real numbers.
The complementary error function used by the code (`scipy.special.erfc`)
is embedded through its mathematical definition
`erfc x = 1 - (2/√π) ∫ t in 0..x, exp (-t²)`.
The external solver is an opaque parameter of `encontrar_parametros`,
since its implementation lives outside the repository.
Python scalar-float semantics of `/` and `**` (raising on a zero
denominator, and on the invalid `pow` corner cases) are modelled by
`Option`-valued variants `pyDiv`, `pyPow`, `calculo_capacidade_py`,
`peukert_py`.
-/

open Real

/-- The Gaussian antiderivative `∫ t in 0..x, exp (-t²)` that underlies the
complementary error function computed by `scipy.special.erfc`. -/
noncomputable def gaussInt (x : ℝ) : ℝ := ∫ t in (0:ℝ)..x, Real.exp (-t ^ 2)

/-- The complementary error function `erfc x = 1 - (2/√π) ∫ t in 0..x, exp (-t²)`,
the mathematical function implemented by `scipy.special.erfc`. -/
noncomputable def erfc (x : ℝ) : ℝ := 1 - 2 / Real.sqrt π * gaussInt x

/-- `calculo_capacidade(Cm, i, ik, n)` from the source:
`C = (Cm/erfc(-n)) * erfc( ((i/ik) - 1)/(1/n) )`. -/
noncomputable def calculo_capacidade (Cm i ik n : ℝ) : ℝ :=
  Cm / erfc (-n) * erfc ((i / ik - 1) / (1 / n))

/-- `peukert(n, R, i, C)` from the source: the body rebinds `R = 1/R` and
returns `t = (R*(C/R)**n) / (i**n)` (`**` is real exponentiation). -/
noncomputable def peukert (n R i C : ℝ) : ℝ :=
  let R := 1 / R
  R * (C / R) ^ n / i ^ n

/-- Runtime formula exactly as §4.4 of the spec words it:
let `R = 1 / C_rating`; `t = R * (C / R)^n / i^n`. -/
noncomputable def duration_spec (n C_rating i C : ℝ) : ℝ :=
  (1 / C_rating) * (C / (1 / C_rating)) ^ n / i ^ n

/-- The inner `modelo(params, i)` of `encontrar_parametros`:
`(Cm/erfc(-n)) * erfc( ((i/ik) - 1)/(1/n) )` with `params = (Cm, n, ik)`. -/
noncomputable def modelo (params : ℝ × ℝ × ℝ) (i : ℝ) : ℝ :=
  match params with
  | (Cm, n, ik) => Cm / erfc (-n) * erfc ((i / ik - 1) / (1 / n))

/-- The inner `residuals(params, i, C_observado)` of `encontrar_parametros`:
elementwise `modelo(params, i) - C_observado`. -/
noncomputable def residuals (params : ℝ × ℝ × ℝ) (i C_observado : List ℝ) : List ℝ :=
  List.zipWith (fun x c => modelo params x - c) i C_observado

/-- Result record of `scipy.optimize.least_squares`: the optimized parameter
vector `x` and the residual `cost` (the two fields the code reads). -/
structure LMResult where
  x : ℝ × ℝ × ℝ
  cost : ℝ

/-- Shape of the external `scipy.optimize.least_squares` call as used by the
code: it receives the residual function, the initial parameters, and the two
data arrays threaded through `args`, and produces an `LMResult`. -/
def LMSolver : Type :=
  ((ℝ × ℝ × ℝ) → List ℝ → List ℝ → List ℝ) → (ℝ × ℝ × ℝ) → List ℝ → List ℝ → LMResult

/-- `encontrar_parametros(C_observado, i)` from the source. The body rebinds
`i`, `C_observado` and `params_iniciais` to fixed constants before invoking
the solver, exactly as the Python function does; the external solver is the
parameter `least_squares`. The code has no failure path of its own, so the
result is always `Except.ok`. -/
noncomputable def encontrar_parametros (least_squares : LMSolver)
    (C_observado i : List ℝ) : Except String LMResult :=
  let Cm_parametro : ℝ := 61.285
  let i : List ℝ := [10 * Cm_parametro, 7.5 * Cm_parametro, 5 * Cm_parametro]
  let C_observado : List ℝ := [15.054043042538622, 25.81989538243598, 38.59230288240648]
  let params_iniciais : ℝ × ℝ × ℝ := (100, 0.5, 300)
  Except.ok (least_squares residuals params_iniciais i C_observado)

/-- A concrete solver instance (returns the initial parameters with zero
cost), used to evaluate `encontrar_parametros` at concrete inputs. -/
def lsConst : LMSolver := fun _ p _ _ => ⟨p, 0⟩

/-- Python scalar-float division: raises `ZeroDivisionError` (modelled as
`none`) on a zero denominator, otherwise real division. -/
noncomputable def pyDiv (a b : ℝ) : Option ℝ :=
  if b = 0 then none else some (a / b)

/-- Python scalar-float `**`: raises on `0.0 ** negative`
(`ZeroDivisionError`) and on a negative base with a non-integral exponent
(`ValueError`); otherwise real exponentiation. -/
noncomputable def pyPow (b e : ℝ) : Option ℝ :=
  haveI := Classical.propDecidable (∀ k : ℤ, e ≠ (k : ℝ))
  if b = 0 ∧ e < 0 then none
  else if b < 0 ∧ ∀ k : ℤ, e ≠ (k : ℝ) then none
  else some (b ^ e)

/-- `calculo_capacidade` under Python scalar-float semantics, with the
divisions performed in the source's evaluation order. -/
noncomputable def calculo_capacidade_py (Cm i ik n : ℝ) : Option ℝ := do
  let a ← pyDiv Cm (erfc (-n))
  let r ← pyDiv i ik
  let ninv ← pyDiv 1 n
  let arg ← pyDiv (r - 1) ninv
  pure (a * erfc arg)

/-- `peukert` under Python scalar-float semantics, with the divisions and
powers performed in the source's evaluation order. -/
noncomputable def peukert_py (n R i C : ℝ) : Option ℝ := do
  let R' ← pyDiv 1 R
  let q ← pyDiv C R'
  let p1 ← pyPow q n
  let p2 ← pyPow i n
  pyDiv (R' * p1) p2

/-- Claim C3: `encontrar_parametros` ignores both of its array arguments —
the body rebinds the observation arrays and the initial guess to fixed
constants before the solver runs, so the result is independent of the
arguments. -/
theorem encontrar_parametros_ignores_arguments
    (ls : LMSolver) (C_observado i C_observado' i' : List ℝ) :
    encontrar_parametros ls C_observado i = encontrar_parametros ls C_observado' i' := rfl

/-- Continuity of the Gaussian integrand. -/
theorem continuous_gaussian : Continuous fun t : ℝ => Real.exp (-t ^ 2) := by
  continuity

theorem gaussian_intervalIntegrable (a b : ℝ) :
    IntervalIntegrable (fun t : ℝ => Real.exp (-t ^ 2)) MeasureTheory.volume a b :=
  continuous_gaussian.intervalIntegrable a b

theorem gaussInt_zero : gaussInt 0 = 0 := intervalIntegral.integral_same

theorem erfc_zero : erfc 0 = 1 := by
  simp [erfc, gaussInt_zero]

theorem gaussInt_nonneg {x : ℝ} (hx : 0 ≤ x) : 0 ≤ gaussInt x :=
  intervalIntegral.integral_nonneg hx fun u _ => (Real.exp_pos _).le

/-- The increment of `gaussInt` is the Gaussian integral over the increment. -/
theorem gaussInt_sub_eq (a b : ℝ) :
    gaussInt b - gaussInt a = ∫ t in a..b, Real.exp (-t ^ 2) := by
  have h := intervalIntegral.integral_add_adjacent_intervals
    (gaussian_intervalIntegrable 0 a) (gaussian_intervalIntegrable a b)
  unfold gaussInt
  linarith

/-- `erfc` is non-increasing. -/
theorem erfc_le_erfc {a b : ℝ} (hab : a ≤ b) : erfc b ≤ erfc a := by
  have hint : 0 ≤ ∫ t in a..b, Real.exp (-t ^ 2) :=
    intervalIntegral.integral_nonneg hab fun u _ => (Real.exp_pos _).le
  have hc : 0 ≤ 2 / Real.sqrt π := by positivity
  have hprod := mul_nonneg hc hint
  rw [← gaussInt_sub_eq a b] at hprod
  unfold erfc
  nlinarith

/-- `erfc` is strictly decreasing. -/
theorem erfc_lt_erfc {a b : ℝ} (hab : a < b) : erfc b < erfc a := by
  have hint : 0 < ∫ t in a..b, Real.exp (-t ^ 2) :=
    intervalIntegral.intervalIntegral_pos_of_pos (gaussian_intervalIntegrable a b)
      (fun u => Real.exp_pos _) hab
  have hc : 0 < 2 / Real.sqrt π := by positivity
  have hprod := mul_pos hc hint
  rw [← gaussInt_sub_eq a b] at hprod
  unfold erfc
  nlinarith

/-- The Gaussian antiderivative is odd. -/
theorem gaussInt_neg_eq (x : ℝ) : gaussInt (-x) = -gaussInt x := by
  have h := intervalIntegral.integral_comp_neg (a := (0:ℝ)) (b := x)
    (f := fun t : ℝ => Real.exp (-t ^ 2))
  simp only [neg_sq, neg_zero] at h
  unfold gaussInt
  rw [intervalIntegral.integral_symm, ← h]

theorem erfc_neg_eq (x : ℝ) : erfc (-x) = 1 + 2 / Real.sqrt π * gaussInt x := by
  unfold erfc
  rw [gaussInt_neg_eq]
  ring

theorem erfc_neg_pos {x : ℝ} (hx : 0 ≤ x) : 0 < erfc (-x) := by
  rw [erfc_neg_eq]
  have h : 0 ≤ 2 / Real.sqrt π * gaussInt x :=
    mul_nonneg (by positivity) (gaussInt_nonneg hx)
  linarith

/-- Counterexample to claim C1: at `Cm = 1, i = 2, ik = 1, n = 2` the code's
value differs from the spec's formula, because the code divides the
normalized argument by `1/n` (i.e. multiplies it by `n`) instead of
multiplying it by `1/n`. -/
theorem calculo_capacidade_spec_formula_false :
    calculo_capacidade 1 2 1 2 ≠ 1 / erfc (-2) * erfc ((2 / 1 - 1) * (1 / 2)) := by
  unfold calculo_capacidade
  have harg : ((2:ℝ) / 1 - 1) / (1 / 2) = 2 := by norm_num
  have harg' : ((2:ℝ) / 1 - 1) * (1 / 2) = 1 / 2 := by norm_num
  rw [harg, harg']
  have hpos : 0 < erfc (-2 : ℝ) := erfc_neg_pos (by norm_num)
  have hlt : erfc (2:ℝ) < erfc (1 / 2 : ℝ) := erfc_lt_erfc (by norm_num)
  intro h
  have hcancel := mul_left_cancel₀ (by positivity : (1:ℝ) / erfc (-2) ≠ 0) h
  exact absurd hcancel (ne_of_lt hlt)

/-- Claim C1 (amended): `calculo_capacidade` returns
`(Cm / erfc(-n)) * erfc(((i/ik) - 1) * n)` — the normalized argument is
divided by `1/n`, i.e. multiplied by the exponent `n` itself, before being
passed to `erfc`. -/
theorem calculo_capacidade_formula (Cm i ik n : ℝ)
    (hCm : 0 < Cm) (hik : 0 < ik) (hn : 0 < n) (hi : 0 ≤ i) :
    calculo_capacidade Cm i ik n = Cm / erfc (-n) * erfc ((i / ik - 1) * n) := by
  unfold calculo_capacidade
  rw [one_div, div_inv_eq_mul]

/-- Witness for the amended claim C1 at `Cm = ik = n = i = 1`. -/
theorem calculo_capacidade_formula_witness :
    calculo_capacidade 1 1 1 1 = 1 / erfc (-1) * erfc ((1 / 1 - 1) * 1) :=
  calculo_capacidade_formula 1 1 1 1 one_pos one_pos one_pos zero_le_one

/-- Claim C6: at `i = ik` the erfc argument vanishes and, since
`erfc 0 = 1`, the capacity equals `Cm / erfc (-n)`. -/
theorem calculo_capacidade_at_ik (Cm ik n : ℝ)
    (hCm : 0 < Cm) (hik : 0 < ik) (hn : 0 < n) :
    calculo_capacidade Cm ik ik n = Cm / erfc (-n) := by
  unfold calculo_capacidade
  rw [div_self (ne_of_gt hik)]
  norm_num [erfc_zero]

/-- Witness for claim C6 at `Cm = ik = n = 1`. -/
theorem calculo_capacidade_at_ik_witness :
    calculo_capacidade 1 1 1 1 = 1 / erfc (-1) :=
  calculo_capacidade_at_ik 1 1 1 one_pos one_pos one_pos

/-- Claim C7: for fixed `Cm, ik, n > 0` the capacity is non-increasing in
the discharge current `i`. -/
theorem calculo_capacidade_antitone (Cm ik n i1 i2 : ℝ)
    (hCm : 0 < Cm) (hik : 0 < ik) (hn : 0 < n) (h1 : 0 ≤ i1) (h12 : i1 ≤ i2) :
    calculo_capacidade Cm i2 ik n ≤ calculo_capacidade Cm i1 ik n := by
  unfold calculo_capacidade
  have hpos : 0 < erfc (-n) := erfc_neg_pos hn.le
  have hfac : 0 ≤ Cm / erfc (-n) := (div_pos hCm hpos).le
  have hdiv : i1 / ik ≤ i2 / ik := (div_le_div_iff_of_pos_right hik).mpr h12
  have harg : (i1 / ik - 1) / (1 / n) ≤ (i2 / ik - 1) / (1 / n) := by
    rw [one_div, div_inv_eq_mul, div_inv_eq_mul]
    exact mul_le_mul_of_nonneg_right (by linarith) hn.le
  exact mul_le_mul_of_nonneg_left (erfc_le_erfc harg) hfac

/-- Witness for claim C7 at `Cm = ik = n = 1`, `i1 = 0`, `i2 = 2`. -/
theorem calculo_capacidade_antitone_witness :
    calculo_capacidade 1 2 1 1 ≤ calculo_capacidade 1 0 1 1 :=
  calculo_capacidade_antitone 1 1 1 0 2 one_pos one_pos one_pos le_rfl (by norm_num)

/-- Claim C8: under Python scalar-float semantics, calling
`calculo_capacidade` with `ik = 0` raises (`ZeroDivisionError` from `i/ik`),
rather than silently returning an infinite value. -/
theorem calculo_capacidade_py_ik_zero (Cm i n : ℝ)
    (hCm : 0 < Cm) (hi : 0 ≤ i) (hn : 0 < n) :
    calculo_capacidade_py Cm i 0 n = none := by
  unfold calculo_capacidade_py
  by_cases h : erfc (-n) = 0 <;> simp [pyDiv, h]

/-- Witness for claim C8 at `Cm = 1, i = 1, n = 1`. -/
theorem calculo_capacidade_py_ik_zero_witness :
    calculo_capacidade_py 1 1 0 1 = none :=
  calculo_capacidade_py_ik_zero 1 1 1 one_pos zero_le_one one_pos

/-- Counterexample to claim C9: with observation arrays of differing
lengths (1 versus 2) the estimator does not reject the input — it returns
`Except.ok` with whatever the solver produces on the fixed internal data. -/
theorem encontrar_parametros_no_shape_check :
    List.length [(1:ℝ)] ≠ List.length [(1:ℝ), 2] ∧
      (encontrar_parametros lsConst [(1:ℝ)] [(1:ℝ), 2]).isOk = true :=
  ⟨by simp, rfl⟩

/-- Claim C9 (amended): `encontrar_parametros` performs no shape validation
at all — it ignores both array arguments, always invokes the solver on the
fixed internal three-point dataset, and returns successfully regardless of
the lengths of its inputs. -/
theorem encontrar_parametros_accepts_any_shape (ls : LMSolver) (C_observado i : List ℝ) :
    encontrar_parametros ls C_observado i =
      Except.ok (ls residuals (100, 0.5, 300)
        [10 * 61.285, 7.5 * 61.285, 5 * 61.285]
        [15.054043042538622, 25.81989538243598, 38.59230288240648]) := rfl

/-- Claim C10: under Python scalar-float semantics, calling `peukert` with
operating current `i = 0` (and valid remaining arguments) raises
(`ZeroDivisionError` from the final division by `i**n = 0`), rather than
returning an unflagged infinite duration. -/
theorem peukert_py_current_zero (n R C : ℝ) (hn : 0 < n) (hR : 0 < R) (hC : 0 < C) :
    peukert_py n R 0 C = none := by
  have hR' : (1:ℝ) / R ≠ 0 := one_div_ne_zero hR.ne'
  have hq : 0 < C / (1 / R) := div_pos hC (by positivity)
  simp [peukert_py, pyDiv, pyPow, hR.ne', hR', hq.ne', not_lt_of_gt hq,
    not_lt_of_gt hn, Real.zero_rpow hn.ne']

/-- Witness for claim C10 at `n = 0.653, R = 100, C = 6`. -/
theorem peukert_py_current_zero_witness :
    peukert_py 0.653 100 0 6 = none :=
  peukert_py_current_zero 0.653 100 6 (by norm_num) (by norm_num) (by norm_num)

/-- Integral over `0..x` of the degree-`n` Taylor polynomial of the Gaussian
integrand, evaluated in closed form. -/
theorem gaussian_poly_integral (x : ℝ) (n : ℕ) :
    (∫ t in (0:ℝ)..x, ∑ j ∈ Finset.range n, (-t ^ 2) ^ j / (j.factorial : ℝ)) =
      ∑ j ∈ Finset.range n, (-1 : ℝ) ^ j * x ^ (2 * j + 1) / ((j.factorial : ℝ) * (2 * j + 1)) := by
  rw [intervalIntegral.integral_finset_sum]
  · refine Finset.sum_congr rfl fun j _ => ?_
    have hfun : ∀ t : ℝ, (-t ^ 2) ^ j / (j.factorial : ℝ)
        = ((-1 : ℝ) ^ j / (j.factorial : ℝ)) * t ^ (2 * j) := by
      intro t
      rw [neg_pow, pow_mul]
      ring
    simp only [hfun]
    rw [intervalIntegral.integral_const_mul, integral_pow]
    rw [zero_pow (by omega : 2 * j + 1 ≠ 0)]
    have h1 : (j.factorial : ℝ) ≠ 0 := Nat.cast_ne_zero.mpr j.factorial_ne_zero
    have h2 : (2 * (j : ℝ) + 1) ≠ 0 := by positivity
    push_cast
    field_simp
  · intro j _
    exact Continuous.intervalIntegrable (by continuity) 0 x

/-- Taylor bracketing of `gaussInt` on `[0, 1]`: the integral of the Gaussian
integrand differs from the integrated Taylor polynomial by at most the
integrated Lagrange-type remainder of `Real.exp_bound`. -/
theorem gaussInt_taylor_bound (x : ℝ) (hx0 : 0 ≤ x) (hx1 : x ≤ 1) (n : ℕ) (hn : 0 < n) :
    |gaussInt x - ∑ j ∈ Finset.range n, (-1 : ℝ) ^ j * x ^ (2 * j + 1) / ((j.factorial : ℝ) * (2 * j + 1))| ≤
      x ^ (2 * n + 1) * ((n + 1) / ((n.factorial : ℝ) * n * (2 * n + 1))) := by
  have hpolyc : Continuous fun t : ℝ => ∑ j ∈ Finset.range n, (-t ^ 2) ^ j / (j.factorial : ℝ) := by
    refine continuous_finset_sum _ fun j _ => Continuous.div_const ?_ _
    exact Continuous.pow (Continuous.neg (continuous_pow 2)) j
  have hdiff : gaussInt x
        - ∑ j ∈ Finset.range n, (-1 : ℝ) ^ j * x ^ (2 * j + 1) / ((j.factorial : ℝ) * (2 * j + 1))
      = ∫ t in (0:ℝ)..x,
          (Real.exp (-t ^ 2) - ∑ j ∈ Finset.range n, (-t ^ 2) ^ j / (j.factorial : ℝ)) := by
    rw [intervalIntegral.integral_sub (gaussian_intervalIntegrable 0 x)
      (hpolyc.intervalIntegrable 0 x), gaussian_poly_integral]
    rfl
  rw [hdiff]
  have habs := intervalIntegral.abs_integral_le_integral_abs (μ := MeasureTheory.volume)
    (f := fun t : ℝ => Real.exp (-t ^ 2) - ∑ j ∈ Finset.range n, (-t ^ 2) ^ j / (j.factorial : ℝ))
    hx0
  refine habs.trans ?_
  have hpt : ∀ t ∈ Set.Icc (0:ℝ) x,
      |Real.exp (-t ^ 2) - ∑ j ∈ Finset.range n, (-t ^ 2) ^ j / (j.factorial : ℝ)|
        ≤ t ^ (2 * n) * ((n + 1) / ((n.factorial : ℝ) * n)) := by
    intro t ht
    have ht0 : 0 ≤ t := ht.1
    have ht1 : t ≤ 1 := ht.2.trans hx1
    have habs1 : |(-t ^ 2 : ℝ)| ≤ 1 := by
      rw [abs_neg, abs_of_nonneg (sq_nonneg t)]
      exact pow_le_one₀ ht0 ht1
    have hb := Real.exp_bound habs1 hn
    refine hb.trans (le_of_eq ?_)
    rw [abs_neg, abs_of_nonneg (sq_nonneg t), ← pow_mul]
    push_cast
    ring_nf
  have hmono : (∫ t in (0:ℝ)..x,
        |Real.exp (-t ^ 2) - ∑ j ∈ Finset.range n, (-t ^ 2) ^ j / (j.factorial : ℝ)|)
      ≤ ∫ t in (0:ℝ)..x, t ^ (2 * n) * ((n + 1) / ((n.factorial : ℝ) * n)) := by
    refine intervalIntegral.integral_mono_on hx0 ?_ ?_ hpt
    · exact ((continuous_gaussian.sub hpolyc).abs).intervalIntegrable 0 x
    · exact (Continuous.mul (continuous_pow _) continuous_const).intervalIntegrable 0 x
  refine hmono.trans (le_of_eq ?_)
  rw [intervalIntegral.integral_mul_const, integral_pow]
  rw [zero_pow (by omega : 2 * n + 1 ≠ 0)]
  have hfac : (n.factorial : ℝ) ≠ 0 := Nat.cast_ne_zero.mpr n.factorial_ne_zero
  have hnne : (n : ℝ) ≠ 0 := Nat.cast_ne_zero.mpr hn.ne'
  have h2n : (2 * (n : ℝ) + 1) ≠ 0 := by positivity
  push_cast
  field_simp
  exact Or.inl (by ring)

/-- Numeric bracketing of `gaussInt (653/1000)` (six Taylor terms). -/
theorem gaussInt_bounds_at_653 :
    (5709451 / 10000000 : ℝ) ≤ gaussInt (653 / 1000) ∧
      gaussInt (653 / 1000) ≤ 5709462 / 10000000 := by
  have h := gaussInt_taylor_bound (653 / 1000) (by norm_num) (by norm_num) 6 (by norm_num)
  rw [abs_le] at h
  obtain ⟨hlo, hhi⟩ := h
  norm_num [Finset.sum_range_succ, Nat.factorial] at hlo hhi
  constructor <;> linarith

/-- Numeric bracketing of `gaussInt (404207/12876000)` (two Taylor terms). -/
theorem gaussInt_bounds_at_arg :
    (3138196 / 100000000 : ℝ) ≤ gaussInt (404207 / 12876000) ∧
      gaussInt (404207 / 12876000) ≤ 3138198 / 100000000 := by
  have h := gaussInt_taylor_bound (404207 / 12876000) (by norm_num) (by norm_num) 2 (by norm_num)
  rw [abs_le] at h
  obtain ⟨hlo, hhi⟩ := h
  norm_num [Finset.sum_range_succ, Nat.factorial] at hlo hhi
  constructor <;> linarith

/-- Rational bracketing of `√π` derived from the `d6` bounds on `π`. -/
theorem sqrt_pi_bounds :
    (1772453 / 1000000 : ℝ) ≤ Real.sqrt π ∧ Real.sqrt π ≤ 1772454 / 1000000 := by
  constructor
  · rw [Real.le_sqrt (by norm_num) pi_nonneg]
    nlinarith [Real.pi_gt_d6]
  · rw [Real.sqrt_le_left (by norm_num)]
    nlinarith [Real.pi_lt_d6]

/-- Rational bracketing of the constant `2/√π`. -/
theorem two_div_sqrt_pi_bounds :
    (11283790 / 10000000 : ℝ) ≤ 2 / Real.sqrt π ∧
      2 / Real.sqrt π ≤ 11283798 / 10000000 := by
  obtain ⟨hlo, hhi⟩ := sqrt_pi_bounds
  have hpos : (0:ℝ) < Real.sqrt π := Real.sqrt_pos.mpr pi_pos
  constructor
  · have h1 : (2:ℝ) / (1772454 / 1000000) ≤ 2 / Real.sqrt π :=
      div_le_div_of_nonneg_left (by norm_num) hpos hhi
    linarith [h1, show (11283790 / 10000000 : ℝ) ≤ 2 / (1772454 / 1000000) by norm_num]
  · have h1 : (2:ℝ) / Real.sqrt π ≤ 2 / (1772453 / 1000000) :=
      div_le_div_of_nonneg_left (by norm_num) (by norm_num) hlo
    linarith [h1, show (2:ℝ) / (1772453 / 1000000) ≤ 11283798 / 10000000 by norm_num]

/-- Numeric bracketing of `erfc (-(653/1000))`. -/
theorem erfc_bounds_at_653 :
    (16442423 / 10000000 : ℝ) ≤ erfc (-(653 / 1000)) ∧
      erfc (-(653 / 1000)) ≤ 16442442 / 10000000 := by
  obtain ⟨hg1, hg2⟩ := gaussInt_bounds_at_653
  obtain ⟨hc1, hc2⟩ := two_div_sqrt_pi_bounds
  rw [erfc_neg_eq]
  constructor
  · nlinarith
  · nlinarith

/-- Numeric bracketing of `erfc (-(404207/12876000))`. -/
theorem erfc_bounds_at_arg :
    (10354107 / 10000000 : ℝ) ≤ erfc (-(404207 / 12876000)) ∧
      erfc (-(404207 / 12876000)) ≤ 10354108 / 10000000 := by
  obtain ⟨hg1, hg2⟩ := gaussInt_bounds_at_arg
  obtain ⟨hc1, hc2⟩ := two_div_sqrt_pi_bounds
  rw [erfc_neg_eq]
  constructor
  · nlinarith
  · nlinarith

/-- Claim C4: the capacity at the reference inputs from the code's docstring,
`Cm = 61.285, i = 5·61.285, ik = 321.9, n = 0.653`, is `38.5923` within
`10⁻³` absolute error. -/
theorem calculo_capacidade_reference_value :
    |calculo_capacidade 61.285 (5 * 61.285) 321.9 0.653 - 38.5923| < 1 / 10 ^ 3 := by
  have harg : ((5 * 61.285 / 321.9 : ℝ) - 1) / (1 / 0.653) = -(404207 / 12876000) := by
    norm_num
  have hn : (-0.653 : ℝ) = -(653 / 1000) := by norm_num
  unfold calculo_capacidade
  rw [harg, hn]
  obtain ⟨hE1lo, hE1hi⟩ := erfc_bounds_at_653
  obtain ⟨hE2lo, hE2hi⟩ := erfc_bounds_at_arg
  have hE1pos : (0:ℝ) < erfc (-(653 / 1000)) := by linarith
  have hE2pos : (0:ℝ) < erfc (-(404207 / 12876000)) := by linarith
  rw [abs_lt, div_mul_eq_mul_div, sub_lt_iff_lt_add, lt_sub_iff_add_lt,
    div_lt_iff hE1pos, lt_div_iff hE1pos]
  constructor <;> nlinarith

/-- Rational bracketing of `(15/2) ^ 0.653` via 1000th powers. -/
theorem rpow_15_2_bounds :
    (3727 / 1000 : ℝ) ≤ (15 / 2 : ℝ) ^ (653 / 1000 : ℝ) ∧
      (15 / 2 : ℝ) ^ (653 / 1000 : ℝ) ≤ 3728 / 1000 := by
  have hbase : (0:ℝ) ≤ 15 / 2 := by norm_num
  have hkey : ((15 / 2 : ℝ) ^ (653 / 1000 : ℝ)) ^ (1000 : ℕ) = (15 / 2 : ℝ) ^ (653 : ℕ) := by
    rw [← Real.rpow_natCast ((15 / 2 : ℝ) ^ (653 / 1000 : ℝ)) 1000, ← Real.rpow_mul hbase,
      ← Real.rpow_natCast (15 / 2 : ℝ) 653]
    norm_num
  constructor
  · refine le_of_pow_le_pow_left (by norm_num : (1000:ℕ) ≠ 0)
      (Real.rpow_nonneg hbase _) ?_
    rw [hkey]
    norm_num
  · refine le_of_pow_le_pow_left (by norm_num : (1000:ℕ) ≠ 0) (by norm_num) ?_
    rw [hkey]
    norm_num

/-- Claim C5: the runtime estimator computes exactly the spec's classical
Peukert formula `t = R·(C/R)^n / i^n` with `R = 1/C_rating`, and at the
docstring inputs `n = 0.653, C_rating = 100, i = 80, C = 6` the duration is
`0.037333` hours within `10⁻⁴`. -/
theorem peukert_matches_duration_spec :
    (∀ n R i C : ℝ, 0 < R → 0 < i → 0 < C → peukert n R i C = duration_spec n R i C) ∧
      |peukert 0.653 100 80 6 - 0.037333| < 1 / 10 ^ 4 := by
  constructor
  · intro n R i C _ _ _
    rfl
  · have hval : peukert 0.653 100 80 6
        = (1 / 100 : ℝ) * (15 / 2 : ℝ) ^ (653 / 1000 : ℝ) := by
      show (1 / 100 : ℝ) * ((6 : ℝ) / (1 / 100)) ^ (0.653 : ℝ) / (80 : ℝ) ^ (0.653 : ℝ) = _
      rw [show ((6 : ℝ) / (1 / 100)) = 600 by norm_num,
        show (0.653 : ℝ) = (653 / 1000 : ℝ) by norm_num,
        mul_div_assoc, ← Real.div_rpow (by norm_num : (0:ℝ) ≤ 600) (by norm_num : (0:ℝ) ≤ 80)]
      norm_num
    obtain ⟨hlo, hhi⟩ := rpow_15_2_bounds
    have h37 : (0.037333 : ℝ) = 37333 / 1000000 := by norm_num
    rw [hval, h37, abs_lt]
    constructor <;> nlinarith

/-- Witness for claim C5 at `n = R = i = C = 1`. -/
theorem peukert_matches_duration_spec_witness :
    peukert 1 1 1 1 = duration_spec 1 1 1 1 :=
  peukert_matches_duration_spec.1 1 1 1 1 one_pos one_pos one_pos
